import Mathlib

/-!
Verification of the h1b-map wage-lookup application.

The development shallowly embeds the TypeScript source:
* the classification engine `calculateWageLevel` (WagePanel / Sidebar),
* the county resolver `buildCountyToAreaMap` and its name normalization
  (wage-helpers), together with the `STATE_FIPS` table,
* the map color compiler `updateMapColors` of `WageMap.tsx` (area status
  colors, county-name grouping, and the compiled match expression),
* the lookup `findWageForCounty` and the hover/click/leave handlers,
* the `Home` component's hover/selection state, and
* the wage-data load effect (job-category fetch and response application).

JavaScript strings are modelled as `List Char` / `String`; JS `Map`s as
insertion-ordered association lists with JS `get` / `set` / push-to-value
semantics; numbers as `ℚ` (salaries, hourly rates) and `ℤ` (area codes).
Regex-based operations (`replace`, `split`, title casing) are embedded as
fuel-based structural recursions so all definitions reduce in the kernel;
the fuel is always sufficient (each step consumes at least one character).
-/

/-- JS `\s` whitespace class restricted to the ASCII range, which also
covers what `String.prototype.trim` removes on the data in this app. -/
def isJsSpace (c : Char) : Bool :=
  c == ' ' || c == '\t' || c == '\n' || c == '\r' ||
  c == Char.ofNat 11 || c == Char.ofNat 12

/-- JS `\w` word-character class: letters, digits, underscore. -/
def isWordChar (c : Char) : Bool :=
  c.isAlpha || c.isDigit || c == '_'

/-- Match a literal character sequence at the head of a list; on success
return the remainder. -/
def matchLit : List Char → List Char → Option (List Char)
  | [], rest => some rest
  | _ :: _, [] => none
  | p :: ps, c :: cs => if c = p then matchLit ps cs else none

/-- Lowercase a character list (JS `toLowerCase` on the ASCII names used
by this app). -/
def toLowerList (l : List Char) : List Char := l.map Char.toLower

/-- Drop leading JS whitespace (greedy `\s*`). -/
def dropSpaces (l : List Char) : List Char := l.dropWhile isJsSpace

/-- JS `trim`: remove whitespace at both ends. -/
def jsTrim (l : List Char) : List Char :=
  ((l.dropWhile isJsSpace).reverse.dropWhile isJsSpace).reverse

/-- The alternation `(county|parish|municipio|borough|census area)` of the
suffix-stripping regex, tried in the regex's left-to-right order. -/
def matchAnyToken (l : List Char) : Option (List Char) :=
  match matchLit "county".data l with
  | some r => some r
  | none =>
    match matchLit "parish".data l with
    | some r => some r
    | none =>
      match matchLit "municipio".data l with
      | some r => some r
      | none =>
        match matchLit "borough".data l with
        | some r => some r
        | none => matchLit "census area".data l

/-- One attempted match of `\s*(county|parish|municipio|borough|census
area)\s*` anchored at the current scan position.  The alternatives all
start with a letter, so the greedy `\s*` never needs to backtrack. -/
def tryMatchSuffix (l : List Char) : Option (List Char) :=
  match matchAnyToken (dropSpaces l) with
  | some r => some (dropSpaces r)
  | none => none

/-- Global regex replacement by the empty string: scan left to right,
removing each non-overlapping match of the suffix pattern, continuing
after the end of each match (JS `replace(..., '')` with the `g` flag).
`fuel` starts at the list length; every step consumes at least one
character, so the fuel never runs out. -/
def stripTokensGo : Nat → List Char → List Char
  | 0, l => l
  | _ + 1, [] => []
  | fuel + 1, c :: cs =>
    match tryMatchSuffix (c :: cs) with
    | some rest => stripTokensGo fuel rest
    | none => c :: stripTokensGo fuel cs

/-- `l.replace(/\s*(county|parish|municipio|borough|census area)\s*/gi, '')`
on an (already lowercased) character list. -/
def stripTokens (l : List Char) : List Char := stripTokensGo l.length l

/-- The county-name normalization used when building the reverse index:
`county.county.toLowerCase().replace(/\s*(county|parish|municipio|borough|census area)\s*/gi, '').trim()`. -/
def normalizeCountyName (s : String) : String :=
  ⟨jsTrim (stripTokens (toLowerList s.data))⟩

/-- The normalization `findWageForCounty` applies to a renderer feature
name: `countyName.toLowerCase().trim()` — no suffix stripping. -/
def fwcNormalize (s : String) : String :=
  ⟨jsTrim (toLowerList s.data)⟩

/-- `name.replace(/\w\S*/g, w => w.replace(/^\w/, c => c.toUpperCase()))`:
uppercase the word character that starts each `\w\S*` match, copying the
rest.  The Bool state records whether the scan is inside a match's `\S*`
tail. -/
def titleCaseGo : Bool → List Char → List Char
  | _, [] => []
  | inTok, c :: cs =>
    if inTok then
      if isJsSpace c then c :: titleCaseGo false cs
      else c :: titleCaseGo true cs
    else
      if isWordChar c then c.toUpper :: titleCaseGo true cs
      else c :: titleCaseGo false cs

/-- Title-case reconstruction of a display name from a normalized key. -/
def titleCase (s : String) : String := ⟨titleCaseGo false s.data⟩

/-- JS `String.prototype.split` with a non-empty literal separator,
fuelled by the input length plus one. -/
def jsSplitGo (sep : List Char) : Nat → List Char → List Char → List (List Char)
  | 0, acc, l => [acc.reverse ++ l]
  | _ + 1, acc, [] => [acc.reverse]
  | fuel + 1, acc, c :: cs =>
    match matchLit sep (c :: cs) with
    | some rest => acc.reverse :: jsSplitGo sep fuel [] rest
    | none => jsSplitGo sep fuel (c :: acc) cs

/-- `s.split(sep)` for a non-empty separator string. -/
def jsSplit (sep s : String) : List String :=
  (jsSplitGo sep.data (s.data.length + 1) [] s.data).map (fun l => ⟨l⟩)

/-- Value of a non-empty digit sequence in base 10. -/
def digitsVal (l : List Char) : ℤ :=
  l.foldl (fun n c => 10 * n + ((c.toNat : ℤ) - 48)) 0

/-- Maximal digit run at the head of the list, `none` when there is no
digit (JS `NaN`). -/
def digitsPart (l : List Char) : Option ℤ :=
  let ds := l.takeWhile Char.isDigit
  if ds.isEmpty then none else some (digitsVal ds)

/-- JS `parseInt(s, 10)`: skip leading whitespace, optional sign, then the
maximal digit run; `none` models `NaN`. -/
def parseInt10 (s : String) : Option ℤ :=
  match s.data.dropWhile isJsSpace with
  | '-' :: r => (digitsPart r).map (fun v => -v)
  | '+' :: r => digitsPart r
  | l => digitsPart l

/-- JS `Map.prototype.get` on an insertion-ordered association list. -/
def jsMapGet {κ β : Type} [DecidableEq κ] : List (κ × β) → κ → Option β
  | [], _ => none
  | (k', v) :: rest, k => if k = k' then some v else jsMapGet rest k

/-- JS `Map.prototype.set`: update in place when the key exists, append
otherwise. -/
def jsMapSet {κ β : Type} [DecidableEq κ] : List (κ × β) → κ → β → List (κ × β)
  | [], k, v => [(k, v)]
  | (k', v') :: rest, k, v =>
    if k = k' then (k', v) :: rest else (k', v') :: jsMapSet rest k v

/-- The `if (!map.has(k)) map.set(k, []); map.get(k)!.push(v)` idiom:
append `v` to the list stored under `k`, creating the entry at the end of
the map when absent. -/
def jsMapPush {κ σ : Type} [DecidableEq κ] : List (κ × List σ) → κ → σ → List (κ × List σ)
  | [], k, v => [(k, [v])]
  | (k', vs) :: rest, k, v =>
    if k = k' then (k', vs ++ [v]) :: rest else (k', vs) :: jsMapPush rest k v

/-- A wage record for one (job category, area) pair: `WageData` in the
source, hourly tier rates as exact rationals. -/
structure WageData where
  area : ℤ
  areaName : String
  level1 : ℚ
  level2 : ℚ
  level3 : ℚ
  level4 : ℚ
deriving DecidableEq, Repr

/-- A county row of the geography reference data. -/
structure CountyInfo where
  county : String
  state : String
  stateAb : String
deriving DecidableEq, Repr

/-- One wage area of the Area Directory with its member counties. -/
structure AreaMapping where
  name : String
  counties : List CountyInfo
deriving DecidableEq, Repr

/-- `STATE_FIPS`: 2-letter state abbreviation to 2-digit FIPS code. -/
def STATE_FIPS (ab : String) : Option String :=
  match ab with
  | "AL" => some "01" | "AK" => some "02" | "AZ" => some "04" | "AR" => some "05"
  | "CA" => some "06" | "CO" => some "08" | "CT" => some "09" | "DE" => some "10"
  | "DC" => some "11" | "FL" => some "12" | "GA" => some "13" | "HI" => some "15"
  | "ID" => some "16" | "IL" => some "17" | "IN" => some "18" | "IA" => some "19"
  | "KS" => some "20" | "KY" => some "21" | "LA" => some "22" | "ME" => some "23"
  | "MD" => some "24" | "MA" => some "25" | "MI" => some "26" | "MN" => some "27"
  | "MS" => some "28" | "MO" => some "29" | "MT" => some "30" | "NE" => some "31"
  | "NV" => some "32" | "NH" => some "33" | "NJ" => some "34" | "NM" => some "35"
  | "NY" => some "36" | "NC" => some "37" | "ND" => some "38" | "OH" => some "39"
  | "OK" => some "40" | "OR" => some "41" | "PA" => some "42" | "RI" => some "44"
  | "SC" => some "45" | "SD" => some "46" | "TN" => some "47" | "TX" => some "48"
  | "UT" => some "49" | "VT" => some "50" | "VA" => some "51" | "WA" => some "53"
  | "WV" => some "54" | "WI" => some "55" | "WY" => some "56" | "PR" => some "72"
  | _ => none

/-- The inner loop body of `buildCountyToAreaMap`: one county row of an
area.  Rows whose state abbreviation has no FIPS entry are skipped
(`if (fips)` guard). -/
def addGeoCounty (areaCode : String) (m : List (String × List String))
    (county : CountyInfo) : List (String × List String) :=
  match STATE_FIPS county.stateAb with
  | some fips =>
    jsMapPush m (normalizeCountyName county.county ++ "::" ++ fips) areaCode
  | none => m

/-- The outer loop body of `buildCountyToAreaMap`: all county rows of one
`Object.entries` pair. -/
def addGeoArea (m : List (String × List String)) (entry : String × AreaMapping) :
    List (String × List String) :=
  entry.2.counties.foldl (addGeoCounty entry.1) m

/-- `buildCountyToAreaMap`: reverse index from `"normalized_name::fips"`
keys to the area codes claiming that county, in `Object.entries` /
insertion order. -/
def buildCountyToAreaMap (data : List (String × AreaMapping)) : List (String × List String) :=
  data.foldl addGeoArea []

/-- `calculateWageLevel` (WagePanel / Sidebar): highest passed tier by the
annualized (× 2080) thresholds, checked from level 4 downward, with tier 1
as the floor. -/
def calculateWageLevel (salary : ℚ) (w : WageData) : ℕ :=
  if w.level4 * 2080 ≤ salary then 4
  else if w.level3 * 2080 ≤ salary then 3
  else if w.level2 * 2080 ≤ salary then 2
  else 1

/-- The hourly rate of tier `k` of a wage record (`levelK` fields). -/
def levelOf (w : WageData) : ℕ → ℚ
  | 1 => w.level1
  | 2 => w.level2
  | 3 => w.level3
  | 4 => w.level4
  | _ => 0

/-- The tiers-non-decreasing invariant of the source wage data. -/
def TiersMono (w : WageData) : Prop :=
  w.level1 ≤ w.level2 ∧ w.level2 ≤ w.level3 ∧ w.level3 ≤ w.level4

/-- The wage record of the spec's end-to-end scenario: area 12345 with
hourly tiers [40, 50, 60, 70]. -/
def wageArea12345 : WageData :=
  { area := 12345, areaName := "Area 12345"
    level1 := 40, level2 := 50, level3 := 60, level4 := 70 }

/-- The per-area status color of `updateMapColors`: green at or above the
annualized level-3 rate, blue at level 2, amber at level 1, red below
level 1. -/
def areaStatusColor (salary : ℚ) (w : WageData) : String :=
  if w.level3 * 2080 ≤ salary then "#10b981"
  else if w.level2 * 2080 ≤ salary then "#0ea5e9"
  else if w.level1 * 2080 ≤ salary then "#f59e0b"
  else "#ef4444"

/-- The `areaStatus` map of `updateMapColors`: one `Map.set` per wage
record, keyed by area code. -/
def buildAreaStatus (salary : ℚ) (wages : List WageData) : List (ℤ × String) :=
  wages.foldl (fun m w => jsMapSet m w.area (areaStatusColor salary w)) []

/-- `currentWages.find(w => w.area === parseInt(areaCode, 10))`; a `NaN`
parse compares unequal to every area. -/
def findMatchWage (wages : List WageData) (code : String) : Option WageData :=
  match parseInt10 code with
  | some n => wages.find? (fun w => w.area == n)
  | none => none

/-- The `for (const areaCode of areaCodes)` loop of `findWageForCounty`:
first indexed area code present in the current wage set wins. -/
def firstWageForCodes (wages : List WageData) : List String → Option WageData
  | [] => none
  | code :: rest =>
    match findMatchWage wages code with
    | some w => some w
    | none => firstWageForCodes wages rest

/-- `findWageForCounty` (current `WageMap`): composite
`"name::stateFips"` lookup only; an empty wage set, a falsy state code, a
missing key or no code matching a loaded area all yield `none` — the
function is total and never throws. -/
def findWageForCounty (wages : List WageData) (lookup : List (String × List String))
    (countyName stateFips : String) : Option WageData :=
  if wages.isEmpty then none
  else
    match (if stateFips ≠ "" then
             jsMapGet lookup (fwcNormalize countyName ++ "::" ++ stateFips)
           else none) with
    | some codes => firstWageForCodes wages codes
    | none => none

/-- The `{ wage, county, state }` payload delivered to the `Home`
listeners. -/
structure WageSelection where
  wage : Option WageData
  county : String
  state : String
deriving DecidableEq, Repr

/-- `clickHandler`: resolve the feature's name and state, then notify the
click listener. -/
def clickSelection (wages : List WageData) (lookup : List (String × List String))
    (countyName stateFips : String) : WageSelection :=
  { wage := findWageForCounty wages lookup countyName stateFips
    county := countyName, state := stateFips }

/-- `mouseMoveHandler`'s notification to the hover listener (same
resolution as the click path). -/
def hoverSelection (wages : List WageData) (lookup : List (String × List String))
    (countyName stateFips : String) : WageSelection :=
  { wage := findWageForCounty wages lookup countyName stateFips
    county := countyName, state := stateFips }

/-- `mouseLeaveHandler`'s notification:
`onAreaHover({ wage: null, county: '', state: '' })`. -/
def leaveSelection : WageSelection :=
  { wage := none, county := "", state := "" }

/-- The hover/selection state of the `Home` component. -/
structure HomeState where
  selectedWage : Option WageData
  selectedLocation : Option (String × String)
  hoveredWage : Option WageData
  hoveredLocation : Option (String × String)
deriving DecidableEq, Repr

/-- `handleAreaSelect` of `Home`. -/
def handleAreaSelect (st : HomeState) (sel : WageSelection) : HomeState :=
  { st with
    selectedWage := sel.wage
    selectedLocation :=
      match sel.wage with
      | some _ => some (sel.county, sel.state)
      | none => none }

/-- `handleAreaHover` of `Home`. -/
def handleAreaHover (st : HomeState) (sel : WageSelection) : HomeState :=
  { st with
    hoveredWage := sel.wage
    hoveredLocation :=
      match sel.wage with
      | some _ => some (sel.county, sel.state)
      | none => none }

/-- `const displayedWage = hoveredWage || selectedWage`. -/
def displayedWage (st : HomeState) : Option WageData :=
  match st.hoveredWage with
  | some w => some w
  | none => st.selectedWage

/-- `const displayedLocation = hoveredWage ? hoveredLocation : selectedLocation`. -/
def displayedLocation (st : HomeState) : Option (String × String) :=
  match st.hoveredWage with
  | some _ => st.hoveredLocation
  | none => st.selectedLocation

/-- One branch of the compiled `['match', ['get', 'NAME'], ...]` paint
expression: either a direct color, or a nested
`['match', ['get', 'STATE'], ...]` with its own fallback. -/
inductive NameRule where
  | direct (color : String)
  | byState (branches : List (String × String)) (fallback : String)
deriving DecidableEq, Repr

/-- The whole compiled paint expression: ordered name branches plus the
global fallback appended at the end. -/
structure MatchExpr where
  branches : List (String × NameRule)
  fallback : String
deriving DecidableEq, Repr

/-- The `for (const code of areaCodes)` color search of `updateMapColors`:
first area code whose parsed value is in the `areaStatus` map. -/
def firstAreaColor (areaStatus : List (ℤ × String)) : List String → Option String
  | [] => none
  | code :: rest =>
    match (match parseInt10 code with
           | some n => jsMapGet areaStatus n
           | none => none) with
    | some c => some c
    | none => firstAreaColor areaStatus rest

/-- One `lookup.forEach` step of `updateMapColors`: split the key at
`"::"`, skip falsy name/fips parts, find the group color, and push the
`(fips, color)` entry under the title-cased name. -/
def addNameGroup (areaStatus : List (ℤ × String))
    (groups : List (String × List (String × String)))
    (entry : String × List String) : List (String × List (String × String)) :=
  match jsSplit "::" entry.1 with
  | name :: fips :: _ =>
    if name = "" ∨ fips = "" then groups
    else
      match firstAreaColor areaStatus entry.2 with
      | some color => jsMapPush groups (titleCase name) (fips, color)
      | none => groups
  | _ => groups

/-- The `nameGroups` map of `updateMapColors`: title-cased county name to
its `(stateFips, color)` entries, in lookup iteration order. -/
def buildNameGroups (salary : ℚ) (wages : List WageData)
    (lookup : List (String × List String)) : List (String × List (String × String)) :=
  lookup.foldl (addNameGroup (buildAreaStatus salary wages)) []

/-- The branch emitted for one name group: a direct color for a single
entry, otherwise a nested by-state rule with the no-data fallback. -/
def mkNameRule (entries : List (String × String)) : NameRule :=
  match entries with
  | [(_, c)] => NameRule.direct c
  | es => NameRule.byState es "#e2e8f0"

/-- Assemble the match expression from the name groups, appending the
global `'#e2e8f0'` no-data fallback. -/
def compileMatchExpr (groups : List (String × List (String × String))) : MatchExpr :=
  { branches := groups.map (fun g => (g.1, mkNameRule g.2)), fallback := "#e2e8f0" }

/-- The paint expression `updateMapColors` builds for a non-empty wage
set. -/
def updateMapColorsExpr (salary : ℚ) (wages : List WageData)
    (lookup : List (String × List String)) : MatchExpr :=
  compileMatchExpr (buildNameGroups salary wages lookup)

/-- The `'fill-color'` paint property of the `counties-fill` layer. -/
inductive PaintColor where
  | solid (color : String)
  | expr (e : MatchExpr)
deriving DecidableEq, Repr

/-- `updateMapColors` as a transformer of the `'fill-color'` paint
property: an empty wage set paints the solid no-data color; otherwise the
compiled expression is applied only when `hasmatches` is true (some name
group was produced), and the previous paint is kept unchanged when no
county matched. -/
def updateMapColors (salary : ℚ) (wages : List WageData)
    (lookup : List (String × List String)) (paint : PaintColor) : PaintColor :=
  if wages.isEmpty then PaintColor.solid "#e2e8f0"
  else
    let groups := buildNameGroups salary wages lookup
    if groups.isEmpty then paint
    else PaintColor.expr (compileMatchExpr groups)

/-- MapLibre `match` semantics for one name branch: a nested by-state rule
selects the first branch equal to the feature's state, else its
fallback. -/
def NameRule.eval (r : NameRule) (state : String) : String :=
  match r with
  | NameRule.direct c => c
  | NameRule.byState brs fb =>
    match brs.find? (fun b => b.1 == state) with
    | some b => b.2
    | none => fb

/-- MapLibre `match` semantics of the whole expression on a feature's
`NAME` and `STATE` properties. -/
def MatchExpr.eval (e : MatchExpr) (name state : String) : String :=
  match e.branches.find? (fun b => b.1 == name) with
  | some b => b.2.eval state
  | none => e.fallback

/-- The branch the compiled expression holds for a county name, if any. -/
def ruleFor (e : MatchExpr) (name : String) : Option NameRule :=
  (e.branches.find? (fun b => b.1 == name)).map Prod.snd

/-- Observable events of the wage-data load effect: a job-category
selection (null clears), or a fetch response arriving for the category it
was issued for. -/
inductive WageEvent where
  | selectCategory (soc : Option String)
  | response (soc : String) (wages : List WageData)
deriving DecidableEq, Repr

/-- How one event changes the `wageData` state: the effect clears on a
null selection and `setWageData(wages)` runs unconditionally when any
response arrives — the source compares no request key, so the response's
category is ignored. -/
def wageLoadStep (current : List WageData) : WageEvent → List WageData
  | WageEvent.selectCategory none => []
  | WageEvent.selectCategory (some _) => current
  | WageEvent.response _ wages => wages

/-- The `wageData` state after a sequence of load events. -/
def runWageLoad (events : List WageEvent) : List WageData :=
  events.foldl wageLoadStep []

/-- The reverse index holds `code` in the code list stored under `key`. -/
def mapHasCode (m : List (String × List String)) (key code : String) : Prop :=
  ∃ codes, jsMapGet m key = some codes ∧ code ∈ codes

/-- `pat` occurs as a contiguous character sequence inside `l`. -/
def containsSeq (pat : List Char) : List Char → Bool
  | [] => (matchLit pat []).isSome
  | c :: cs => (matchLit pat (c :: cs)).isSome || containsSeq pat cs

/-- No suffix token of the stripping regex occurs anywhere in `l`. -/
def hasNoSuffixToken (l : List Char) : Bool :=
  !(containsSeq "county".data l || containsSeq "parish".data l ||
    containsSeq "municipio".data l || containsSeq "borough".data l ||
    containsSeq "census area".data l)

/-- Geography fixture: one area ("100") claiming Orange County, CA. -/
def orangeArea : AreaMapping :=
  { name := "Orange Area"
    counties := [{ county := "Orange County", state := "California", stateAb := "CA" }] }

/-- `Object.entries` of the fixture's county-mapping data. -/
def orangeData : List (String × AreaMapping) := [("100", orangeArea)]

/-- The wage record of area 100 in the fixture. -/
def orangeWage : WageData :=
  { area := 100, areaName := "Orange Area"
    level1 := 10, level2 := 20, level3 := 30, level4 := 40 }

/-- Collision fixture: Jefferson county in state 01 linked to area 1. -/
def wageJeffA : WageData :=
  { area := 1, areaName := "Jefferson Area A"
    level1 := 10, level2 := 20, level3 := 30, level4 := 40 }

/-- Collision fixture: Jefferson county in state 12 linked to area 2,
with much higher tiers than area 1. -/
def wageJeffB : WageData :=
  { area := 2, areaName := "Jefferson Area B"
    level1 := 100, level2 := 200, level3 := 300, level4 := 400 }

/-- Reverse-index fixture for two same-named counties in two states. -/
def lookupJeff : List (String × List String) :=
  [("jefferson::01", ["1"]), ("jefferson::12", ["2"])]

/-- A generic wage record for job category A's response. -/
def wageRecA : WageData :=
  { area := 11, areaName := "Area of category A"
    level1 := 1, level2 := 2, level3 := 3, level4 := 4 }

/-- A generic wage record for job category B's response. -/
def wageRecB : WageData :=
  { area := 22, areaName := "Area of category B"
    level1 := 5, level2 := 6, level3 := 7, level4 := 8 }

/-- A reverse index whose only key points at an area code absent from the
current wage set. -/
def lookupNoMatch : List (String × List String) := [("orange::06", ["999"])]

/-- A `Home` state with a click selection (B) and an active hover (A). -/
def homeStateAB : HomeState :=
  { selectedWage := some wageRecB, selectedLocation := some ("B County", "12")
    hoveredWage := some wageRecA, hoveredLocation := some ("A County", "01") }

/-- The hover notification that put record A into `homeStateAB`. -/
def hoverSelA : WageSelection :=
  { wage := some wageRecA, county := "A County", state := "01" }

/-- C1: `calculateWageLevel` returns the highest `k` in {4,3,2,1} whose
annualized tier rate (`levelK * 2080`) is at or below the salary, and
returns the floor tier 1 when the salary is below tier 1's annualized
rate.  Stated for wage records satisfying the data model's non-decreasing
tier invariant. -/
theorem c1_calculateWageLevel_highest_tier (w : WageData) (salary : ℚ)
    (hmono : TiersMono w) :
    (1 ≤ calculateWageLevel salary w ∧ calculateWageLevel salary w ≤ 4)
    ∧ (∀ k, 1 ≤ k → k ≤ 4 → levelOf w k * 2080 ≤ salary →
        k ≤ calculateWageLevel salary w)
    ∧ (2 ≤ calculateWageLevel salary w →
        levelOf w (calculateWageLevel salary w) * 2080 ≤ salary)
    ∧ (salary < w.level1 * 2080 → calculateWageLevel salary w = 1) := by
  obtain ⟨h12, h23, h34⟩ := hmono
  unfold calculateWageLevel
  split_ifs with h4 h3 h2
  · refine ⟨⟨by norm_num, le_refl 4⟩, ?_, ?_, ?_⟩
    · intro k hk1 hk4 _; exact hk4
    · intro _; simpa [levelOf] using h4
    · intro hlt; exfalso; linarith
  · refine ⟨⟨by norm_num, by norm_num⟩, ?_, ?_, ?_⟩
    · intro k hk1 hk4 hks
      interval_cases k
      · norm_num
      · norm_num
      · norm_num
      · exfalso; exact h4 (by simpa [levelOf] using hks)
    · intro _; simpa [levelOf] using h3
    · intro hlt; exfalso; linarith
  · refine ⟨⟨by norm_num, by norm_num⟩, ?_, ?_, ?_⟩
    · intro k hk1 hk4 hks
      interval_cases k
      · norm_num
      · norm_num
      · exfalso; exact h3 (by simpa [levelOf] using hks)
      · exfalso; exact h4 (by simpa [levelOf] using hks)
    · intro _; simpa [levelOf] using h2
    · intro hlt; exfalso; linarith
  · refine ⟨⟨le_refl 1, by norm_num⟩, ?_, ?_, ?_⟩
    · intro k hk1 hk4 hks
      interval_cases k
      · norm_num
      · exfalso; exact h2 (by simpa [levelOf] using hks)
      · exfalso; exact h3 (by simpa [levelOf] using hks)
      · exfalso; exact h4 (by simpa [levelOf] using hks)
    · intro hge; exact absurd hge (by norm_num)
    · intro _; rfl

/-- C1 witness: the spec's end-to-end record (tiers [40,50,60,70]) at
salary 120000 satisfies the theorem's hypotheses, and the classification
is tier 2. -/
theorem c1_calculateWageLevel_highest_tier_witness :
    TiersMono wageArea12345
    ∧ calculateWageLevel 120000 wageArea12345 = 2
    ∧ ((1 ≤ calculateWageLevel 120000 wageArea12345
          ∧ calculateWageLevel 120000 wageArea12345 ≤ 4)
       ∧ (∀ k, 1 ≤ k → k ≤ 4 → levelOf wageArea12345 k * 2080 ≤ 120000 →
           k ≤ calculateWageLevel 120000 wageArea12345)
       ∧ (2 ≤ calculateWageLevel 120000 wageArea12345 →
           levelOf wageArea12345 (calculateWageLevel 120000 wageArea12345) * 2080 ≤ 120000)
       ∧ ((120000 : ℚ) < wageArea12345.level1 * 2080 →
           calculateWageLevel 120000 wageArea12345 = 1)) :=
  ⟨by norm_num [TiersMono, wageArea12345],
   by norm_num [calculateWageLevel, wageArea12345],
   c1_calculateWageLevel_highest_tier wageArea12345 120000
     (by norm_num [TiersMono, wageArea12345])⟩

/-- C6: for a fixed wage record, the classification is monotone in the
salary. -/
theorem c6_calculateWageLevel_monotone (w : WageData) (s1 s2 : ℚ)
    (h : s1 < s2) :
    calculateWageLevel s1 w ≤ calculateWageLevel s2 w := by
  unfold calculateWageLevel
  split_ifs <;> linarith

/-- C6 witness: monotonicity at the concrete pair 100000 < 120000 on the
end-to-end record. -/
theorem c6_calculateWageLevel_monotone_witness :
    (100000 : ℚ) < 120000
    ∧ calculateWageLevel 100000 wageArea12345 ≤ calculateWageLevel 120000 wageArea12345 :=
  ⟨by norm_num,
   c6_calculateWageLevel_monotone wageArea12345 100000 120000 (by norm_num)⟩

lemma jsMapGet_set_self {κ β : Type} [DecidableEq κ]
    (m : List (κ × β)) (k : κ) (v : β) :
    jsMapGet (jsMapSet m k v) k = some v := by
  induction m with
  | nil => simp [jsMapSet, jsMapGet]
  | cons p rest ih =>
    obtain ⟨k', v'⟩ := p
    by_cases h : k = k'
    · simp [jsMapSet, jsMapGet, h]
    · simp [jsMapSet, jsMapGet, h, ih]

lemma jsMapGet_set_ne {κ β : Type} [DecidableEq κ]
    (m : List (κ × β)) (k : κ) (v : β) (k0 : κ) (h : k0 ≠ k) :
    jsMapGet (jsMapSet m k v) k0 = jsMapGet m k0 := by
  induction m with
  | nil => simp [jsMapSet, jsMapGet, h]
  | cons p rest ih =>
    obtain ⟨k', v'⟩ := p
    by_cases hk : k = k'
    · subst hk; simp [jsMapSet, jsMapGet, h]
    · simp [jsMapSet, jsMapGet, hk, ih]

lemma buildAreaStatus_foldl_not_mem (salary : ℚ) :
    ∀ (l : List WageData) (m : List (ℤ × String)) (a : ℤ),
      a ∉ l.map WageData.area →
      jsMapGet (l.foldl (fun m' w => jsMapSet m' w.area (areaStatusColor salary w)) m) a
        = jsMapGet m a := by
  intro l
  induction l with
  | nil => intro m a _; rfl
  | cons x xs ih =>
    intro m a ha
    rw [List.map_cons, List.mem_cons] at ha
    push_neg at ha
    rw [List.foldl_cons, ih _ _ ha.2, jsMapGet_set_ne _ _ _ _ ha.1]

lemma jsMapGet_buildAreaStatus_aux (salary : ℚ) :
    ∀ (l : List WageData) (m : List (ℤ × String)) (w : WageData),
      w ∈ l → (l.map WageData.area).Nodup →
      jsMapGet (l.foldl (fun m' w' => jsMapSet m' w'.area (areaStatusColor salary w')) m) w.area
        = some (areaStatusColor salary w) := by
  intro l
  induction l with
  | nil => intro m w hw _; cases hw
  | cons x xs ih =>
    intro m w hw hnd
    rw [List.map_cons, List.nodup_cons] at hnd
    rw [List.foldl_cons]
    rcases List.mem_cons.mp hw with hwx | hwxs
    · subst hwx
      rw [buildAreaStatus_foldl_not_mem salary xs _ _ hnd.1,
        jsMapGet_set_self]
    · exact ih _ w hwxs hnd.2

/-- C2 (amended): the color `updateMapColors` records for an area is the
three-threshold status color `areaStatusColor` (keyed on the annualized
level-1..3 rates only), not a 1:1 relabeling of `calculateWageLevel`'s
tier: tiers 3 and 4 share green, tier 2 is blue, and tier 1 splits into
amber (at or above level 1) and red (below level 1). -/
theorem c2_updateMapColors_area_color (salary : ℚ) (wages : List WageData)
    (w : WageData) (hw : w ∈ wages)
    (hnodup : (wages.map WageData.area).Nodup) (hmono : TiersMono w) :
    jsMapGet (buildAreaStatus salary wages) w.area = some (areaStatusColor salary w)
    ∧ (3 ≤ calculateWageLevel salary w → areaStatusColor salary w = "#10b981")
    ∧ (calculateWageLevel salary w = 2 → areaStatusColor salary w = "#0ea5e9")
    ∧ (calculateWageLevel salary w = 1 →
        (w.level1 * 2080 ≤ salary → areaStatusColor salary w = "#f59e0b")
        ∧ (salary < w.level1 * 2080 → areaStatusColor salary w = "#ef4444")) := by
  obtain ⟨h12, h23, h34⟩ := hmono
  refine ⟨jsMapGet_buildAreaStatus_aux salary wages [] w hw hnodup, ?_, ?_, ?_⟩
  · intro h3le
    have hl3 : w.level3 * 2080 ≤ salary := by
      unfold calculateWageLevel at h3le
      split_ifs at h3le with h4 h3 h2
      · linarith
      · exact h3
      · exact absurd h3le (by norm_num)
      · exact absurd h3le (by norm_num)
    unfold areaStatusColor
    rw [if_pos hl3]
  · intro h2eq
    unfold calculateWageLevel at h2eq
    split_ifs at h2eq with h4 h3 h2
    · exact absurd h2eq (by norm_num)
    · exact absurd h2eq (by norm_num)
    · unfold areaStatusColor
      rw [if_neg h3, if_pos h2]
    · exact absurd h2eq (by norm_num)
  · intro h1eq
    unfold calculateWageLevel at h1eq
    split_ifs at h1eq with h4 h3 h2
    · exact absurd h1eq (by norm_num)
    · exact absurd h1eq (by norm_num)
    · exact absurd h1eq (by norm_num)
    · constructor
      · intro hl1
        unfold areaStatusColor
        rw [if_neg h3, if_neg h2, if_pos hl1]
      · intro hlt
        unfold areaStatusColor
        rw [if_neg h3, if_neg h2, if_neg (not_le.mpr hlt)]

/-- C2 witness: on the end-to-end record inside a one-record wage set, the
recorded color at salary 90000 is the instantiated theorem's value. -/
theorem c2_updateMapColors_area_color_witness :
    wageArea12345 ∈ [wageArea12345]
    ∧ TiersMono wageArea12345
    ∧ (jsMapGet (buildAreaStatus 90000 [wageArea12345]) wageArea12345.area
        = some (areaStatusColor 90000 wageArea12345)
       ∧ (3 ≤ calculateWageLevel 90000 wageArea12345 →
           areaStatusColor 90000 wageArea12345 = "#10b981")
       ∧ (calculateWageLevel 90000 wageArea12345 = 2 →
           areaStatusColor 90000 wageArea12345 = "#0ea5e9")
       ∧ (calculateWageLevel 90000 wageArea12345 = 1 →
           (wageArea12345.level1 * 2080 ≤ 90000 →
             areaStatusColor 90000 wageArea12345 = "#f59e0b")
           ∧ ((90000 : ℚ) < wageArea12345.level1 * 2080 →
             areaStatusColor 90000 wageArea12345 = "#ef4444"))) :=
  ⟨by simp, by norm_num [TiersMono, wageArea12345],
   c2_updateMapColors_area_color 90000 [wageArea12345] wageArea12345
     (by simp) (by simp) (by norm_num [TiersMono, wageArea12345])⟩

/-- C2 counterexample: salaries 90000 and 50000 both classify as tier 1 on
the end-to-end record, yet `updateMapColors` records different colors for
the area (amber vs red), so the recorded color is not any function of the
tier — no 1:1 tier-to-color mapping reproduces it. -/
theorem c2_updateMapColors_not_tier_map :
    calculateWageLevel 90000 wageArea12345 = calculateWageLevel 50000 wageArea12345
    ∧ jsMapGet (buildAreaStatus 90000 [wageArea12345]) wageArea12345.area = some "#f59e0b"
    ∧ jsMapGet (buildAreaStatus 50000 [wageArea12345]) wageArea12345.area = some "#ef4444"
    ∧ "#f59e0b" ≠ "#ef4444" := by
  refine ⟨by norm_num [calculateWageLevel, wageArea12345], ?_, ?_, by decide⟩
  · norm_num [buildAreaStatus, areaStatusColor, wageArea12345, jsMapSet, jsMapGet]
  · norm_num [buildAreaStatus, areaStatusColor, wageArea12345, jsMapSet, jsMapGet]

lemma jsMapGet_push_self {κ σ : Type} [DecidableEq κ]
    (m : List (κ × List σ)) (k : κ) (v : σ) :
    jsMapGet (jsMapPush m k v) k = some ((jsMapGet m k).getD [] ++ [v]) := by
  induction m with
  | nil => simp [jsMapPush, jsMapGet]
  | cons p rest ih =>
    obtain ⟨k', vs⟩ := p
    by_cases h : k = k'
    · simp [jsMapPush, jsMapGet, h]
    · simp [jsMapPush, jsMapGet, h, ih]

lemma jsMapGet_push_ne {κ σ : Type} [DecidableEq κ]
    (m : List (κ × List σ)) (k : κ) (v : σ) (k0 : κ) (h : k0 ≠ k) :
    jsMapGet (jsMapPush m k v) k0 = jsMapGet m k0 := by
  induction m with
  | nil => simp [jsMapPush, jsMapGet, h]
  | cons p rest ih =>
    obtain ⟨k', vs⟩ := p
    by_cases hk : k = k'
    · subst hk; simp [jsMapPush, jsMapGet, h]
    · simp [jsMapPush, jsMapGet, hk, ih]

lemma mapHasCode_push (m : List (String × List String)) (k : String) (v : String)
    (key code : String) (h : mapHasCode m key code) :
    mapHasCode (jsMapPush m k v) key code := by
  obtain ⟨codes, hget, hmem⟩ := h
  by_cases hk : key = k
  · subst hk
    refine ⟨codes ++ [v], ?_, List.mem_append_left _ hmem⟩
    rw [jsMapGet_push_self, hget]
    rfl
  · exact ⟨codes, by rw [jsMapGet_push_ne _ _ _ _ hk]; exact hget, hmem⟩

lemma mapHasCode_push_self (m : List (String × List String)) (key code : String) :
    mapHasCode (jsMapPush m key code) key code :=
  ⟨(jsMapGet m key).getD [] ++ [code], jsMapGet_push_self m key code,
   List.mem_append_right _ (List.mem_singleton.mpr rfl)⟩

lemma foldlPreserve {α β : Type} {P : α → Prop} {f : α → β → α}
    (hstep : ∀ a b, P a → P (f a b)) :
    ∀ (l : List β) (a : α), P a → P (l.foldl f a) := by
  intro l
  induction l with
  | nil => intro a h; exact h
  | cons x xs ih => intro a h; rw [List.foldl_cons]; exact ih _ (hstep a x h)

lemma addGeoCounty_preserves (ac key code : String)
    (m : List (String × List String)) (county : CountyInfo)
    (h : mapHasCode m key code) :
    mapHasCode (addGeoCounty ac m county) key code := by
  unfold addGeoCounty
  rcases hf : STATE_FIPS county.stateAb with _ | fips
  · exact h
  · exact mapHasCode_push _ _ _ _ _ h

lemma addGeoArea_preserves (key code : String)
    (m : List (String × List String)) (entry : String × AreaMapping)
    (h : mapHasCode m key code) :
    mapHasCode (addGeoArea m entry) key code := by
  unfold addGeoArea
  exact foldlPreserve (fun m' c hc => addGeoCounty_preserves _ _ _ m' c hc) _ _ h

lemma counties_foldl_establishes (ac : String) :
    ∀ (counties : List CountyInfo) (m : List (String × List String))
      (c : CountyInfo), c ∈ counties →
      ∀ fips, STATE_FIPS c.stateAb = some fips →
      mapHasCode (counties.foldl (addGeoCounty ac) m)
        (normalizeCountyName c.county ++ "::" ++ fips) ac := by
  intro counties
  induction counties with
  | nil => intro m c hc; cases hc
  | cons x xs ih =>
    intro m c hc fips hf
    rw [List.foldl_cons]
    rcases List.mem_cons.mp hc with rfl | hxs
    · refine foldlPreserve (fun m' c' h => addGeoCounty_preserves _ _ _ m' c' h) xs _ ?_
      unfold addGeoCounty
      rw [hf]
      exact mapHasCode_push_self _ _ _
    · exact ih _ c hxs fips hf

lemma build_foldl_establishes (ac : String) (ai : AreaMapping) (c : CountyInfo)
    (fips : String) (hc : c ∈ ai.counties) (hf : STATE_FIPS c.stateAb = some fips) :
    ∀ (data : List (String × AreaMapping)) (m : List (String × List String)),
      (ac, ai) ∈ data →
      mapHasCode (data.foldl addGeoArea m)
        (normalizeCountyName c.county ++ "::" ++ fips) ac := by
  intro data
  induction data with
  | nil => intro m h; cases h
  | cons e rest ih =>
    intro m hmem
    rw [List.foldl_cons]
    rcases List.mem_cons.mp hmem with rfl | hrest
    · refine foldlPreserve (fun m' e' h => addGeoArea_preserves _ _ m' e' h) rest _ ?_
      unfold addGeoArea
      exact counties_foldl_establishes ac ai.counties m c hc fips hf
    · exact ih _ hrest

/-- C3 (amended): for every geography entry whose state abbreviation has a
FIPS code, looking the built index up at the key formed with the index's
own normalization (suffix stripping included) yields a list containing
that entry's area code.  The lookup `findWageForCounty` performs uses
lowercase-and-trim only, which misses entries whose stored county name
contains a suffix token (see the counterexample). -/
theorem c3_build_then_resolve_contains (data : List (String × AreaMapping))
    (ac : String) (ai : AreaMapping) (hmem : (ac, ai) ∈ data)
    (c : CountyInfo) (hc : c ∈ ai.counties)
    (fips : String) (hf : STATE_FIPS c.stateAb = some fips) :
    mapHasCode (buildCountyToAreaMap data)
      (normalizeCountyName c.county ++ "::" ++ fips) ac := by
  unfold buildCountyToAreaMap
  exact build_foldl_establishes ac ai c fips hc hf data [] hmem

/-- C3 witness: the Orange County, CA fixture entry resolves to its own
area code "100" under the index's normalization. -/
theorem c3_build_then_resolve_contains_witness :
    ("100", orangeArea) ∈ orangeData
    ∧ STATE_FIPS "CA" = some "06"
    ∧ mapHasCode (buildCountyToAreaMap orangeData)
        (normalizeCountyName "Orange County" ++ "::" ++ "06") "100" :=
  ⟨by decide, rfl,
   c3_build_then_resolve_contains orangeData "100" orangeArea (by decide)
     { county := "Orange County", state := "California", stateAb := "CA" }
     (by decide) "06" rfl⟩

/-- C3 counterexample: the index stores Orange County, CA under
`"orange::06"`, but resolving the entry's own county name the way
`findWageForCounty` does (lowercase and trim only, no suffix stripping)
builds the key `"orange county::06"`, finds nothing, and returns no wage
even though area 100 is loaded. -/
theorem c3_findWageForCounty_misses_entry :
    jsMapGet (buildCountyToAreaMap orangeData) "orange::06" = some ["100"]
    ∧ fwcNormalize "Orange County" ++ "::" ++ "06" = "orange county::06"
    ∧ jsMapGet (buildCountyToAreaMap orangeData) "orange county::06" = none
    ∧ findWageForCounty [orangeWage] (buildCountyToAreaMap orangeData)
        "Orange County" "06" = none :=
  ⟨rfl, rfl, rfl, rfl⟩

lemma containsSeq_of_matchLit_isSome (pat l : List Char)
    (h : (matchLit pat l).isSome) : containsSeq pat l = true := by
  cases l with
  | nil => simpa [containsSeq] using h
  | cons c cs => simp [containsSeq, h]

lemma containsSeq_of_dropWhile (pat : List Char) (p : Char → Bool) :
    ∀ (l : List Char), containsSeq pat (l.dropWhile p) = true →
      containsSeq pat l = true := by
  intro l
  induction l with
  | nil => intro h; simpa using h
  | cons c cs ih =>
    intro h
    by_cases hp : p c
    · rw [List.dropWhile_cons, if_pos hp] at h
      simp [containsSeq, ih h]
    · rwa [List.dropWhile_cons, if_neg hp] at h

lemma matchAnyToken_some_token (l r : List Char) (h : matchAnyToken l = some r) :
    (matchLit "county".data l).isSome ∨ (matchLit "parish".data l).isSome ∨
    (matchLit "municipio".data l).isSome ∨ (matchLit "borough".data l).isSome ∨
    (matchLit "census area".data l).isSome := by
  unfold matchAnyToken at h
  cases h1 : matchLit "county".data l with
  | some r1 => exact Or.inl (by simp [h1])
  | none =>
    simp only [h1] at h
    cases h2 : matchLit "parish".data l with
    | some r2 => exact Or.inr (Or.inl (by simp [h2]))
    | none =>
      simp only [h2] at h
      cases h3 : matchLit "municipio".data l with
      | some r3 => exact Or.inr (Or.inr (Or.inl (by simp [h3])))
      | none =>
        simp only [h3] at h
        cases h4 : matchLit "borough".data l with
        | some r4 => exact Or.inr (Or.inr (Or.inr (Or.inl (by simp [h4]))))
        | none =>
          simp only [h4] at h
          exact Or.inr (Or.inr (Or.inr (Or.inr (by simp [h]))))

lemma tryMatchSuffix_none_of_noToken (l : List Char)
    (h : hasNoSuffixToken l = true) : tryMatchSuffix l = none := by
  unfold tryMatchSuffix
  cases hm : matchAnyToken (dropSpaces l) with
  | none => rfl
  | some r =>
    exfalso
    unfold hasNoSuffixToken at h
    simp only [Bool.not_eq_true', Bool.or_eq_false_iff] at h
    obtain ⟨⟨⟨⟨hc1, hc2⟩, hc3⟩, hc4⟩, hc5⟩ := h
    rcases matchAnyToken_some_token _ _ hm with h5 | h5 | h5 | h5 | h5
    · exact absurd (containsSeq_of_dropWhile _ _ l (containsSeq_of_matchLit_isSome _ _ h5))
        (by simp [hc1])
    · exact absurd (containsSeq_of_dropWhile _ _ l (containsSeq_of_matchLit_isSome _ _ h5))
        (by simp [hc2])
    · exact absurd (containsSeq_of_dropWhile _ _ l (containsSeq_of_matchLit_isSome _ _ h5))
        (by simp [hc3])
    · exact absurd (containsSeq_of_dropWhile _ _ l (containsSeq_of_matchLit_isSome _ _ h5))
        (by simp [hc4])
    · exact absurd (containsSeq_of_dropWhile _ _ l (containsSeq_of_matchLit_isSome _ _ h5))
        (by simp [hc5])

lemma containsSeq_tail_false (pat : List Char) (c : Char) (cs : List Char)
    (h : containsSeq pat (c :: cs) = false) : containsSeq pat cs = false := by
  rw [containsSeq, Bool.or_eq_false_iff] at h
  exact h.2

lemma hasNoSuffixToken_tail (c : Char) (cs : List Char)
    (h : hasNoSuffixToken (c :: cs) = true) : hasNoSuffixToken cs = true := by
  unfold hasNoSuffixToken at h ⊢
  simp only [Bool.not_eq_true', Bool.or_eq_false_iff] at h ⊢
  obtain ⟨⟨⟨⟨hc1, hc2⟩, hc3⟩, hc4⟩, hc5⟩ := h
  exact ⟨⟨⟨⟨containsSeq_tail_false _ _ _ hc1, containsSeq_tail_false _ _ _ hc2⟩,
    containsSeq_tail_false _ _ _ hc3⟩, containsSeq_tail_false _ _ _ hc4⟩,
    containsSeq_tail_false _ _ _ hc5⟩

lemma stripTokensGo_of_noToken :
    ∀ (fuel : Nat) (l : List Char), hasNoSuffixToken l = true →
      stripTokensGo fuel l = l := by
  intro fuel
  induction fuel with
  | zero => intro l _; rfl
  | succ f ih =>
    intro l h
    cases l with
    | nil => rfl
    | cons c cs =>
      rw [stripTokensGo, tryMatchSuffix_none_of_noToken _ h,
        ih cs (hasNoSuffixToken_tail _ _ h)]

/-- C4 (amended): the index normalization lowercases, removes every
occurrence of the suffix tokens together with adjacent whitespace — as raw
character sequences, not whole words, so tokens inside longer words are
removed too ("Parishville" becomes "ville") — and trims; on names in which
no token occurs it coincides with lowercase-and-trim. -/
theorem c4_normalize_strips_token_sequences :
    (∀ s : String, hasNoSuffixToken (toLowerList s.data) = true →
      normalizeCountyName s = fwcNormalize s)
    ∧ normalizeCountyName "Orange County" = "orange"
    ∧ normalizeCountyName " Jefferson Parish " = "jefferson"
    ∧ normalizeCountyName "Parishville" = "ville" := by
  refine ⟨?_, rfl, rfl, rfl⟩
  intro s h
  unfold normalizeCountyName fwcNormalize stripTokens
  rw [stripTokensGo_of_noToken _ _ h]

/-- C4 witness: "St. Louis" contains no suffix token, so the theorem's
universal part applies to it and the normalization is plain
lowercase-and-trim there. -/
theorem c4_normalize_strips_token_sequences_witness :
    hasNoSuffixToken (toLowerList "St. Louis".data) = true
    ∧ normalizeCountyName "St. Louis" = fwcNormalize "St. Louis"
    ∧ fwcNormalize "St. Louis" = "st. louis" :=
  ⟨by decide,
   c4_normalize_strips_token_sequences.1 "St. Louis" (by decide),
   rfl⟩

/-- C4 counterexample: the regex has no word boundaries, so the letter
sequence "parish" is removed from inside "Parishville"; the claim says the
name should have been left unchanged apart from case. -/
theorem c4_parishville_is_stripped :
    normalizeCountyName "Parishville" = "ville"
    ∧ ("ville" : String) ≠ "parishville" :=
  ⟨rfl, by decide⟩

lemma jsMapPush_keys {κ σ : Type} [DecidableEq κ]
    (m : List (κ × List σ)) (k : κ) (v : σ) :
    (jsMapPush m k v).map Prod.fst =
      if k ∈ m.map Prod.fst then m.map Prod.fst else m.map Prod.fst ++ [k] := by
  induction m with
  | nil => simp [jsMapPush]
  | cons p rest ih =>
    obtain ⟨k', vs⟩ := p
    by_cases h : k = k'
    · simp [jsMapPush, h]
    · rw [show jsMapPush ((k', vs) :: rest) k v = (k', vs) :: jsMapPush rest k v from by
        simp [jsMapPush, h]]
      rw [List.map_cons, ih, List.map_cons]
      by_cases hk : k ∈ rest.map Prod.fst
      · rw [if_pos hk, if_pos (by simp [List.mem_cons, hk])]
      · rw [if_neg hk, if_neg (by simp [List.mem_cons, h, hk]), List.cons_append]

lemma jsMapPush_keys_nodup {κ σ : Type} [DecidableEq κ]
    (m : List (κ × List σ)) (k : κ) (v : σ)
    (h : (m.map Prod.fst).Nodup) : ((jsMapPush m k v).map Prod.fst).Nodup := by
  rw [jsMapPush_keys]
  split_ifs with hk
  · exact h
  · refine List.Nodup.append h (List.nodup_singleton k) ?_
    intro a ha hb
    rw [List.mem_singleton] at hb
    subst hb
    exact hk ha

lemma addNameGroup_keys_nodup (areaStatus : List (ℤ × String))
    (groups : List (String × List (String × String)))
    (entry : String × List String)
    (h : (groups.map Prod.fst).Nodup) :
    ((addNameGroup areaStatus groups entry).map Prod.fst).Nodup := by
  unfold addNameGroup
  cases hs : jsSplit "::" entry.1 with
  | nil => exact h
  | cons name tl =>
    cases tl with
    | nil => exact h
    | cons fips rest2 =>
      change (List.map Prod.fst
        (if name = "" ∨ fips = "" then groups
         else
           match firstAreaColor areaStatus entry.2 with
           | some color => jsMapPush groups (titleCase name) (fips, color)
           | none => groups)).Nodup
      split_ifs with hnf
      · exact h
      · cases hc : firstAreaColor areaStatus entry.2 with
        | none => simp only [hc]; exact h
        | some color => simp only [hc]; exact jsMapPush_keys_nodup _ _ _ h

lemma buildNameGroups_keys_nodup (salary : ℚ) (wages : List WageData)
    (lookup : List (String × List String)) :
    ((buildNameGroups salary wages lookup).map Prod.fst).Nodup := by
  unfold buildNameGroups
  exact foldlPreserve
    (fun g e hg => addNameGroup_keys_nodup (buildAreaStatus salary wages) g e hg)
    lookup [] (by simp)

lemma find_eq_of_mem_keys_nodup {β : Type} :
    ∀ (l : List (String × β)) (k : String) (b : β),
      (l.map Prod.fst).Nodup → (k, b) ∈ l →
      l.find? (fun p => p.1 == k) = some (k, b) := by
  intro l
  induction l with
  | nil => intro k b _ h; cases h
  | cons p rest ih =>
    intro k b hnd hmem
    obtain ⟨k', b'⟩ := p
    rw [List.map_cons, List.nodup_cons] at hnd
    rcases List.mem_cons.mp hmem with heq | hrest
    · obtain ⟨hk, hb⟩ := Prod.mk.injEq .. ▸ heq
      subst hk
      subst hb
      rw [List.find?_cons_of_pos _ (by simp)]
    · have hne : k' ≠ k := by
        intro hkk
        subst hkk
        exact hnd.1 (by simpa using List.mem_map_of_mem Prod.fst hrest)
      rw [List.find?_cons_of_neg _ (by simp [hne])]
      exact ih k b hnd.2 hrest

/-- C5 (amended): the compiled expression's branch for a county-name group
is determined by the group's entry count, not its distinct colors: a group
with exactly one (state, color) entry is emitted as a direct name-to-color
rule, while a group with two or more entries — even when they all carry
the same color — is emitted as a nested rule keyed by state FIPS with the
neutral no-data fallback for unmatched states.  In the collision scenario,
two same-named counties in different states whose areas classify to
different colors therefore get two different colors keyed by state. -/
theorem c5_group_rule_by_entry_count (salary : ℚ) (wages : List WageData)
    (lookup : List (String × List String)) (name : String)
    (entries : List (String × String))
    (h : (name, entries) ∈ buildNameGroups salary wages lookup) :
    ruleFor (updateMapColorsExpr salary wages lookup) name = some (mkNameRule entries) := by
  unfold updateMapColorsExpr compileMatchExpr ruleFor
  have hnd := buildNameGroups_keys_nodup salary wages lookup
  have hmem : (name, mkNameRule entries) ∈
      (buildNameGroups salary wages lookup).map (fun g => (g.1, mkNameRule g.2)) :=
    List.mem_map.mpr ⟨(name, entries), h, rfl⟩
  have hkeys : ((buildNameGroups salary wages lookup).map
      (fun g => (g.1, mkNameRule g.2))).map Prod.fst
      = (buildNameGroups salary wages lookup).map Prod.fst := by
    rw [List.map_map]
    rfl
  rw [find_eq_of_mem_keys_nodup _ _ _ (by rw [hkeys]; exact hnd) hmem]
  rfl

/-- C5 witness: at salary 120000 the two Jefferson areas classify to
different colors (green in state 01, red in state 12); the theorem applied
to that group yields the nested by-state rule, whose evaluation gives the
two different colors keyed by state and the no-data color elsewhere. -/
theorem c5_group_rule_by_entry_count_witness :
    ("Jefferson", [("01", "#10b981"), ("12", "#ef4444")])
      ∈ buildNameGroups 120000 [wageJeffA, wageJeffB] lookupJeff
    ∧ ruleFor (updateMapColorsExpr 120000 [wageJeffA, wageJeffB] lookupJeff) "Jefferson"
        = some (mkNameRule [("01", "#10b981"), ("12", "#ef4444")])
    ∧ (updateMapColorsExpr 120000 [wageJeffA, wageJeffB] lookupJeff).eval "Jefferson" "01"
        = "#10b981"
    ∧ (updateMapColorsExpr 120000 [wageJeffA, wageJeffB] lookupJeff).eval "Jefferson" "12"
        = "#ef4444"
    ∧ (updateMapColorsExpr 120000 [wageJeffA, wageJeffB] lookupJeff).eval "Jefferson" "48"
        = "#e2e8f0"
    ∧ ("#10b981" : String) ≠ "#ef4444" := by
  have hst : buildAreaStatus 120000 [wageJeffA, wageJeffB]
      = [(1, "#10b981"), (2, "#ef4444")] := by
    norm_num [buildAreaStatus, jsMapSet, areaStatusColor, wageJeffA, wageJeffB]
  have hg : buildNameGroups 120000 [wageJeffA, wageJeffB] lookupJeff
      = [("Jefferson", [("01", "#10b981"), ("12", "#ef4444")])] := by
    unfold buildNameGroups
    rw [hst]
    decide
  refine ⟨by rw [hg]; decide,
    c5_group_rule_by_entry_count 120000 [wageJeffA, wageJeffB] lookupJeff
      "Jefferson" [("01", "#10b981"), ("12", "#ef4444")] (by rw [hg]; decide),
    ?_, ?_, ?_, by decide⟩
  · unfold updateMapColorsExpr
    rw [hg]
    decide
  · unfold updateMapColorsExpr
    rw [hg]
    decide
  · unfold updateMapColorsExpr
    rw [hg]
    decide

/-- C5 counterexample: a name group whose two state entries carry the
same color (both areas red at salary 0) maps to exactly one color across
its entries, yet the compiler emits the nested by-state rule, not the
direct name-to-color rule the claim requires. -/
theorem c5_same_color_group_still_nested :
    buildNameGroups 0 [wageJeffA, wageJeffB] lookupJeff
      = [("Jefferson", [("01", "#ef4444"), ("12", "#ef4444")])]
    ∧ ruleFor (updateMapColorsExpr 0 [wageJeffA, wageJeffB] lookupJeff) "Jefferson"
        = some (NameRule.byState [("01", "#ef4444"), ("12", "#ef4444")] "#e2e8f0") := by
  have hst : buildAreaStatus 0 [wageJeffA, wageJeffB]
      = [(1, "#ef4444"), (2, "#ef4444")] := by
    norm_num [buildAreaStatus, jsMapSet, areaStatusColor, wageJeffA, wageJeffB]
  have hg : buildNameGroups 0 [wageJeffA, wageJeffB] lookupJeff
      = [("Jefferson", [("01", "#ef4444"), ("12", "#ef4444")])] := by
    unfold buildNameGroups
    rw [hst]
    decide
  refine ⟨hg, ?_⟩
  unfold updateMapColorsExpr
  rw [hg]
  decide

/-- C7 (code bug): the load effect applies every response
unconditionally, so when job category B is selected before A's response
arrives and A's response lands after B's, the displayed wage set is A's —
the stale response wins, the opposite of last-request-wins. -/
theorem c7_stale_response_is_applied :
    runWageLoad [WageEvent.selectCategory (some "15-1252"),
                 WageEvent.selectCategory (some "15-1134"),
                 WageEvent.response "15-1134" [wageRecB],
                 WageEvent.response "15-1252" [wageRecA]]
      = [wageRecA]
    ∧ [wageRecA] ≠ [wageRecB] := by
  refine ⟨rfl, ?_⟩
  intro h
  have hAB : wageRecA = wageRecB := (List.cons.injEq .. ▸ h).1
  have : wageRecA.area = wageRecB.area := by rw [hAB]
  exact absurd this (by decide)

/-- C8: the displayed selection is hover-if-present-else-selected, and a
hover followed by the leave notification (a null wage) restores the
display to the click selection with no stale hover left behind. -/
theorem c8_hover_preferred_and_leave_restores (st : HomeState) (sel : WageSelection) :
    (∀ w, st.hoveredWage = some w → displayedWage st = some w)
    ∧ (st.hoveredWage = none →
        displayedWage st = st.selectedWage
        ∧ displayedLocation st = st.selectedLocation)
    ∧ (handleAreaHover (handleAreaHover st sel) leaveSelection).hoveredWage = none
    ∧ (handleAreaHover (handleAreaHover st sel) leaveSelection).hoveredLocation = none
    ∧ (handleAreaHover (handleAreaHover st sel) leaveSelection).selectedWage
        = st.selectedWage
    ∧ displayedWage (handleAreaHover (handleAreaHover st sel) leaveSelection)
        = st.selectedWage
    ∧ displayedLocation (handleAreaHover (handleAreaHover st sel) leaveSelection)
        = st.selectedLocation := by
  refine ⟨?_, ?_, ?_, ?_, ?_, ?_, ?_⟩
  · intro w hw
    unfold displayedWage
    rw [hw]
  · intro h0
    unfold displayedWage displayedLocation
    rw [h0]
    exact ⟨rfl, rfl⟩
  · rfl
  · rfl
  · rfl
  · rfl
  · rfl

/-- C8 witness: with click selection B and hover A, the display shows A;
after the leave notification it shows B again. -/
theorem c8_hover_preferred_and_leave_restores_witness :
    homeStateAB.hoveredWage = some wageRecA
    ∧ displayedWage homeStateAB = some wageRecA
    ∧ displayedWage (handleAreaHover (handleAreaHover homeStateAB hoverSelA) leaveSelection)
        = homeStateAB.selectedWage
    ∧ homeStateAB.selectedWage = some wageRecB :=
  ⟨rfl,
   (c8_hover_preferred_and_leave_restores homeStateAB hoverSelA).1 wageRecA rfl,
   (c8_hover_preferred_and_leave_restores homeStateAB hoverSelA).2.2.2.2.2.1,
   rfl⟩

lemma firstWageForCodes_eq_none (wages : List WageData) :
    ∀ (codes : List String),
      (∀ code ∈ codes, findMatchWage wages code = none) →
      firstWageForCodes wages codes = none := by
  intro codes
  induction codes with
  | nil => intro _; rfl
  | cons c cs ih =>
    intro h
    rw [firstWageForCodes, h c (List.mem_cons_self c cs)]
    exact ih (fun code hc => h code (List.mem_cons_of_mem c hc))

/-- C9: whenever the composite key is absent from the reverse index, or
none of the indexed area codes matches a loaded wage area,
`findWageForCounty` returns `none` (it is a total function — the model has
no failure outcome), and the click and hover handlers deliver a null-wage
selection to their listeners. -/
theorem c9_unresolvable_county_yields_none (wages : List WageData)
    (lookup : List (String × List String)) (countyName stateFips : String)
    (h : ∀ codes,
      jsMapGet lookup (fwcNormalize countyName ++ "::" ++ stateFips) = some codes →
      ∀ code ∈ codes, findMatchWage wages code = none) :
    findWageForCounty wages lookup countyName stateFips = none
    ∧ (clickSelection wages lookup countyName stateFips).wage = none
    ∧ (hoverSelection wages lookup countyName stateFips).wage = none := by
  have hf : findWageForCounty wages lookup countyName stateFips = none := by
    unfold findWageForCounty
    cases he : wages.isEmpty
    · by_cases hs : stateFips = ""
      · simp [hs]
      · cases hget : jsMapGet lookup (fwcNormalize countyName ++ "::" ++ stateFips) with
        | none => simp [hs, hget]
        | some codes =>
          simp [hs, hget, firstWageForCodes_eq_none wages codes (h codes hget)]
    · simp
  exact ⟨hf, by simp [clickSelection, hf], by simp [hoverSelection, hf]⟩

/-- C9 witness: area code "999" is indexed for Orange, CA but absent from
the wage set (only area 100 is loaded), so the lookup and both handler
payloads are null. -/
theorem c9_unresolvable_county_yields_none_witness :
    findWageForCounty [orangeWage] lookupNoMatch "Orange" "06" = none
    ∧ (clickSelection [orangeWage] lookupNoMatch "Orange" "06").wage = none
    ∧ (hoverSelection [orangeWage] lookupNoMatch "Orange" "06").wage = none :=
  c9_unresolvable_county_yields_none [orangeWage] lookupNoMatch "Orange" "06"
    (by
      intro codes hget code hcode
      have hkey : jsMapGet lookupNoMatch (fwcNormalize "Orange" ++ "::" ++ "06")
          = some ["999"] := rfl
      rw [hkey] at hget
      injection hget with hinj
      subst hinj
      rw [List.mem_singleton] at hcode
      subst hcode
      rfl)

/-- C10: on a non-empty wage set with no matching county group,
`updateMapColors` leaves the fill-color paint property unchanged; when at
least one group matched, the compiled expression is applied and its final
fallback is the no-data color. -/
theorem c10_no_match_keeps_previous_paint (salary : ℚ) (wages : List WageData)
    (lookup : List (String × List String)) (paint : PaintColor)
    (hw : wages ≠ []) :
    (buildNameGroups salary wages lookup = [] →
      updateMapColors salary wages lookup paint = paint)
    ∧ (buildNameGroups salary wages lookup ≠ [] →
      updateMapColors salary wages lookup paint
        = PaintColor.expr (updateMapColorsExpr salary wages lookup)
      ∧ (updateMapColorsExpr salary wages lookup).fallback = "#e2e8f0") := by
  have he : wages.isEmpty = false := by
    cases wages with
    | nil => exact absurd rfl hw
    | cons a l => rfl
  constructor
  · intro hg
    simp [updateMapColors, he, hg]
  · intro hg
    have hgE : (buildNameGroups salary wages lookup).isEmpty = false := by
      cases hB : buildNameGroups salary wages lookup with
      | nil => exact absurd hB hg
      | cons a l => rfl
    exact ⟨by simp [updateMapColors, updateMapColorsExpr, he, hgE], rfl⟩

/-- C10 witness: with area 100 loaded but the index pointing only at the
absent area 999, no group is built and a previously applied solid paint
survives `updateMapColors`. -/
theorem c10_no_match_keeps_previous_paint_witness :
    buildNameGroups 0 [orangeWage] lookupNoMatch = []
    ∧ updateMapColors 0 [orangeWage] lookupNoMatch (PaintColor.solid "#123456")
        = PaintColor.solid "#123456" := by
  have hst : buildAreaStatus 0 [orangeWage] = [(100, "#ef4444")] := by
    norm_num [buildAreaStatus, jsMapSet, areaStatusColor, orangeWage]
  have hg : buildNameGroups 0 [orangeWage] lookupNoMatch = [] := by
    unfold buildNameGroups
    rw [hst]
    decide
  exact ⟨hg,
    (c10_no_match_keeps_previous_paint 0 [orangeWage] lookupNoMatch
      (PaintColor.solid "#123456") (by simp)).1 hg⟩
